import Mathlib

/-!
Shallow embedding of the typed-builder derive macro (the code generator in
src/typed-builder-macro/src/struct_info.rs and lib.rs).  The generator maps a
struct schema (StructInfo, a list of FieldInfo) to generated Rust items; here
each generator function is embedded as a Lean function computing an abstract
description of the item it emits: the builder type-state pins of each impl
block, the setter argument shapes, the initializer slots of the entry point,
the field assignments of the build method, and a value-level semantics of the
generated setter / mutator bodies.
-/

namespace TypedBuilder

/-- A Rust type, abstracted to what the generator inspects: whether it is the
optional wrapper `Option` applied to an inner type (for strip_option). -/
inductive RustTy where
  | option : RustTy → RustTy
  | named : String → RustTy
deriving DecidableEq, Repr

/-- A Rust expression, abstracted to what the generator inspects: whether it
matches `syn::Expr::Lit(_)` (a literal). -/
inductive RustExpr where
  | lit : String → RustExpr
  | other : String → RustExpr
deriving DecidableEq, Repr

/-- Whether the expression matches `syn::Expr::Lit(_)`. -/
def RustExpr.isLit : RustExpr → Bool
  | .lit _ => true
  | .other _ => false

/-- The `transform` setter setting: an explicit parameter list and a body
replacing the plain single-argument setter. -/
structure Transform where
  params : List (String × RustTy)
  body : RustExpr
deriving DecidableEq, Repr

/-- The `via_mutators` field setting, carrying the initializer expression used
to pre-populate the field in the entry point. -/
structure ViaMutators where
  init : RustExpr
deriving DecidableEq, Repr

/-- Per-field setter settings (`SetterSettings` of field_info.rs).  Options
carrying only a span in the source are embedded as booleans. -/
structure SetterSettings where
  skip : Bool
  rename : Option String
  strip_option : Bool
  strip_bool : Bool
  auto_into : Bool
  transform : Option Transform
deriving DecidableEq, Repr

/-- Per-field builder attributes (`FieldBuilderAttr` of field_info.rs). -/
structure FieldBuilderAttr where
  default : Option RustExpr
  setter : SetterSettings
  via_mutators : Option ViaMutators
  mutable_during_default_resolution : Bool
deriving DecidableEq, Repr

/-- A field of the input struct (`FieldInfo` of field_info.rs): dense ordinal
from enumeration, name, declared type and attributes. -/
structure FieldInfo where
  ordinal : Nat
  name : String
  ty : RustTy
  builder_attr : FieldBuilderAttr
deriving DecidableEq, Repr

/-- A mutator declaration (`Mutator` of mutator.rs): the function name and the
set of field names required to be set when the mutator is invoked. -/
structure MutatorSpec where
  fn_name : String
  required_fields : List String
deriving DecidableEq, Repr

/-- The input schema (`StructInfo` of struct_info.rs). -/
structure StructInfo where
  name : String
  fields : List FieldInfo
  mutators : List MutatorSpec
deriving DecidableEq, Repr

/-- `StructInfo::included_fields`: fields whose setter is not skipped. -/
def StructInfo.included_fields (s : StructInfo) : List FieldInfo :=
  s.fields.filter fun f => !f.builder_attr.setter.skip

/-- `StructInfo::setter_fields`: included fields that are not via-mutator. -/
def StructInfo.setter_fields (s : StructInfo) : List FieldInfo :=
  s.included_fields.filter fun f => f.builder_attr.via_mutators.isNone

/-- How one included field's marker appears in a generated impl block's view of
the builder type-state: left as a generic type parameter, pinned to the Set
shape `(FieldType,)`, or pinned to the Unset shape `()`. -/
inductive MarkerPin where
  | generic : MarkerPin
  | setPinned : MarkerPin
  | unsetPinned : MarkerPin
deriving DecidableEq, Repr

/-! ## RequiredFieldGuard (`StructInfo::required_field_impl`) -/

/-- The builder type-state the guard `build` overload for `field` is impl-ed
on, from the loop in `required_field_impl`: a field with a default or
via-mutator stays generic; an earlier field is pinned Set `(ty,)`; the target
field itself is pinned Unset `()`; a later field stays generic. -/
def required_field_impl_pins (s : StructInfo) (field : FieldInfo) : List MarkerPin :=
  s.included_fields.map fun f =>
    if f.builder_attr.default.isSome || f.builder_attr.via_mutators.isSome then .generic
    else if f.ordinal < field.ordinal then .setPinned
    else if f.ordinal = field.ordinal then .unsetPinned
    else .generic

/-- The deprecation message on the guard overload for `field`. -/
def required_field_error_message (field : FieldInfo) : String :=
  "Missing required field " ++ field.name

/-- The guard overloads emitted by `impl_my_derive` (lib.rs): one per setter
field with no default, each with its builder type-state pins. -/
def derive_required_guards (s : StructInfo) : List (String × List MarkerPin) :=
  (s.setter_fields.filter fun f => f.builder_attr.default.isNone).map fun f =>
    (f.name, required_field_impl_pins s f)

/-- The spec's wording of the guard type-state for target field `field` and
other field `g`: default or via-mutator stays generic; smaller ordinal pinned
Set; greater ordinal generic; the field itself pinned Unset. -/
def guardPinFromSpec (field g : FieldInfo) : MarkerPin :=
  if g.builder_attr.default.isSome || g.builder_attr.via_mutators.isSome then .generic
  else if g.ordinal < field.ordinal then .setPinned
  else if g.ordinal > field.ordinal then .generic
  else .unsetPinned

/-! ## SetterGenerator (`StructInfo::field_impl`) -/

/-- The declared type of the generated setter's argument. -/
inductive ArgTy where
  | implInto : RustTy → ArgTy
  | plainTy : RustTy → ArgTy
deriving DecidableEq, Repr

/-- The expression the generated setter stores into the field's Set slot. -/
inductive ArgExpr where
  | litTrue : ArgExpr
  | transformBody : RustExpr → ArgExpr
  | someOf : ArgExpr → ArgExpr
  | intoOf : ArgExpr → ArgExpr
  | var : String → ArgExpr
deriving DecidableEq, Repr

/-- The parameter list of the generated setter. -/
inductive ParamList where
  | noParams : ParamList
  | customParams : List (String × RustTy) → ParamList
  | singleParam : String → ArgTy → ParamList
deriving DecidableEq, Repr

/-- Modelled from the spec: `FieldInfo::type_from_inside_option` lives in the
configuration layer absent from src/; per the spec, strip-option requires the
declared type to actually be an optional-`T` wrapper, whose inner type `T` it
returns. -/
def type_from_inside_option : RustTy → Option RustTy
  | .option t => some t
  | .named _ => none

/-- The `arg_type` / `param_list` / `arg_expr` computation of `field_impl`
(struct_info.rs lines 268-293): `arg_type` is the inner option type when
strip_option is set without a transform (an error if the declared type is not
an option), `auto_into` wraps the type in `impl Into` and the expression in
`.into()`, and the final dispatch is strip_bool, then transform, then
strip_option, then the plain argument. -/
def setter_arg_shape (field : FieldInfo) : Except String (ParamList × ArgExpr) :=
  let arg_type_res : Except String RustTy :=
    if field.builder_attr.setter.strip_option && field.builder_attr.setter.transform.isNone then
      match type_from_inside_option field.ty with
      | some inner => .ok inner
      | none => .error "cannot strip_option - field is not an Option type"
    else .ok field.ty
  match arg_type_res with
  | .error e => .error e
  | .ok arg_type =>
    let argPair : ArgTy × ArgExpr :=
      if field.builder_attr.setter.auto_into then
        (.implInto arg_type, .intoOf (.var field.name))
      else
        (.plainTy arg_type, .var field.name)
    if field.builder_attr.setter.strip_bool then
      .ok (.noParams, .litTrue)
    else
      match field.builder_attr.setter.transform with
      | some tr => .ok (.customParams tr.params, .transformBody tr.body)
      | none =>
        if field.builder_attr.setter.strip_option then
          .ok (.singleParam field.name argPair.1, .someOf argPair.2)
        else
          .ok (.singleParam field.name argPair.1, argPair.2)

/-- The spec's wording of the argument-shape precedence: strip-bool over
transform over strip-option (accept the inner type, wrap in Some) over
auto-into over plain, with strip-option and auto-into combining by stripping
first and then converting. -/
def arg_shape_from_spec (field : FieldInfo) : Option (ParamList × ArgExpr) :=
  if field.builder_attr.setter.strip_bool then
    some (.noParams, .litTrue)
  else
    match field.builder_attr.setter.transform with
    | some tr => some (.customParams tr.params, .transformBody tr.body)
    | none =>
      if field.builder_attr.setter.strip_option then
        match type_from_inside_option field.ty with
        | some inner =>
          if field.builder_attr.setter.auto_into then
            some (.singleParam field.name (.implInto inner), .someOf (.intoOf (.var field.name)))
          else
            some (.singleParam field.name (.plainTy inner), .someOf (.var field.name))
        | none => none
      else if field.builder_attr.setter.auto_into then
        some (.singleParam field.name (.implInto field.ty), .intoOf (.var field.name))
      else
        some (.singleParam field.name (.plainTy field.ty), .var field.name)

/-- Modelled from the spec: the setter method name lives in the configuration
layer absent from src/; per the spec a field has an optional setter rename,
otherwise the setter is named after the field. -/
def setter_method_name (field : FieldInfo) : String :=
  field.builder_attr.setter.rename.getD field.name

/-- The ordinary setter emitted by `field_impl`: its name, the type-state it
is impl-ed on, the type-state it returns, and its argument shape. -/
structure SetterMethod where
  methodName : String
  selfPins : List MarkerPin
  targetPins : List MarkerPin
  params : ParamList
  argExpr : ArgExpr
deriving DecidableEq, Repr

/-- The repeated-set shadow overload emitted by `field_impl`: its name, the
type-state it is impl-ed on and the one it returns, and the deprecation
message. -/
structure RepeatedGuard where
  methodName : String
  selfPins : List MarkerPin
  returnPins : List MarkerPin
  deprecation_note : String
deriving DecidableEq, Repr

/-- The two impl blocks emitted by `field_impl` for one field. -/
structure FieldImplOutput where
  setter : SetterMethod
  repeated : RepeatedGuard
deriving DecidableEq, Repr

/-- The `ty_generics_tuple` / `target_generics_tuple` pair built by the loop
in `field_impl`: the target field's slot is `()` in the former and `(ty,)` in
the latter; every other included field's slot is its generic parameter. -/
def field_state_tuples (s : StructInfo) (field : FieldInfo) : List MarkerPin × List MarkerPin :=
  (s.included_fields.map fun f => if f.ordinal = field.ordinal then .unsetPinned else .generic,
   s.included_fields.map fun f => if f.ordinal = field.ordinal then .setPinned else .generic)

/-- `StructInfo::field_impl`: the ordinary setter (on the state with the field
Unset, returning the state with the field Set) and the same-named repeated-set
shadow overload (on the state with the field Set, returning that same state,
deprecated with a message naming the field). -/
def field_impl (s : StructInfo) (field : FieldInfo) : Except String FieldImplOutput :=
  match setter_arg_shape field with
  | .error e => .error e
  | .ok shape =>
    let tuples := field_state_tuples s field
    .ok
      { setter :=
          { methodName := setter_method_name field
            selfPins := tuples.1
            targetPins := tuples.2
            params := shape.1
            argExpr := shape.2 }
        repeated :=
          { methodName := setter_method_name field
            selfPins := tuples.2
            returnPins := tuples.2
            deprecation_note := "Repeated field " ++ field.name } }

/-! ## Value-level semantics of generated bodies -/

/-- A runtime marker value of one builder field slot: the Unset shape `()` or
the Set shape `(v,)`. -/
inductive MVal (α : Type) where
  | unsetU : MVal α
  | setV : α → MVal α
deriving DecidableEq, Repr

/-- Whether a slot currently holds the Set shape. -/
def MVal.isSetB : MVal α → Bool
  | .unsetU => false
  | .setV _ => true

/-- A runtime builder value: the tuple of field slots plus the phantom-data
component. -/
structure BuilderVal (α : Type) where
  fields : List (MVal α)
  phantom : Nat
deriving DecidableEq, Repr

/-- Name lookup in a Rust scope, innermost binding first. -/
def lookupEnv (env : List (String × MVal α)) (n : String) : Option (MVal α) :=
  (env.find? fun p => p.1 == n).map fun p => p.2

/-- All-or-nothing resolution of a list of name lookups: the reconstruction
tuple only type-checks when every referenced name resolves. -/
def allSome : List (Option β) → Option (List β)
  | [] => some []
  | none :: _ => none
  | some b :: t => (allSome t).map fun r => b :: r

/-- The bindings produced by the setter's destructuring pattern
`let ( #(#descructuring,)* ) = self.fields;`: the target field's slot is
matched by the pattern `()` and binds nothing; every other slot binds its
field's name. -/
def setterBinds (field : FieldInfo) (l : List (FieldInfo × MVal α)) : List (String × MVal α) :=
  l.filterMap fun p =>
    if p.1.ordinal = field.ordinal then none else some (p.1.name, p.2)

/-- The generated setter body (struct_info.rs lines 314-321):
`let name = (arg_expr,);` binds the field's name to the new Set slot, the
destructuring of `self.fields` then shadows it with every other slot's value,
and the builder is reconstructed by looking the included field names up in the
resulting scope, with the phantom component copied from `self`. `none` models
a body that would not type-check (slot count mismatch, or the target slot not
in the Unset shape required by the `()` pattern). -/
def setter_body_eval (s : StructInfo) (field : FieldInfo) (newv : α) (b : BuilderVal α) :
    Option (BuilderVal α) :=
  let inc := s.included_fields
  let paired := inc.zip b.fields
  if (b.fields.length == inc.length)
      && (paired.all fun p => p.1.ordinal != field.ordinal || !p.2.isSetB) then
    let env := setterBinds field paired ++ [(field.name, MVal.setV newv)]
    (allSome (inc.map fun g => lookupEnv env g.name)).map fun fs =>
      { fields := fs, phantom := b.phantom }
  else
    none

/-- The body of the repeated-set shadow overload (struct_info.rs line 335):
it returns `self` unchanged. -/
def repeated_setter_eval (b : BuilderVal α) : BuilderVal α :=
  b

/-! ## MutatorSynthesizer (`StructInfo::mutator_impl`) -/

/-- The loop of `mutator_impl` (struct_info.rs lines 446-458) pairing each
included field with whether it is exposed to the mutator: a via-mutator field
is always exposed (the `||` short-circuits, leaving the required set
untouched); otherwise the field is exposed exactly when
`required_fields.remove(name)` succeeds, consuming that name from the set. -/
def mutatorExposed : List FieldInfo → List String → List (FieldInfo × Bool)
  | [], _ => []
  | f :: fs, req =>
    if f.builder_attr.via_mutators.isSome then
      (f, true) :: mutatorExposed fs req
    else if f.name ∈ req then
      (f, true) :: mutatorExposed fs (req.erase f.name)
    else
      (f, false) :: mutatorExposed fs req

/-- The statements of the generated mutator body, in emission order
(struct_info.rs lines 476-501): the mutator-struct declaration, the binding of
the call-site arguments into `__args`, the destructuring of `self.fields`, the
construction of the mutator struct, the inner block rebinding the arguments
and calling the body, the unpacking of the mutator struct, and the
reconstruction of the builder. -/
inductive MutStmt where
  | declMutatorStruct : MutStmt
  | bindArgs : MutStmt
  | destructureFields : MutStmt
  | buildMutatorStruct : MutStmt
  | callBody : MutStmt
  | unpackMutator : MutStmt
  | reconstruct : MutStmt
deriving DecidableEq, Repr

/-- The emission order of the generated mutator body's statements. -/
def mutator_body_stmts : List MutStmt :=
  [.declMutatorStruct, .bindArgs, .destructureFields, .buildMutatorStruct,
   .callBody, .unpackMutator, .reconstruct]

/-- The impl block emitted by `mutator_impl`: the method name, the builder
type-state it is impl-ed on, the type-state it returns (the same
`ty_generics` tokens), and the names of the fields exposed to the body. -/
structure MutatorImplOutput where
  fn_name : String
  selfPins : List MarkerPin
  returnPins : List MarkerPin
  exposed_names : List String
deriving DecidableEq, Repr

/-- `StructInfo::mutator_impl`: an exposed field's slot is pinned Set
`(ty,)` in `ty_generics_tuple`; any other field's slot stays generic.  The
method's self type and output type are built from the same generic-argument
list, and the builder is reconstructed with the same destructuring tokens. -/
def mutator_impl (s : StructInfo) (m : MutatorSpec) : MutatorImplOutput :=
  let expo := mutatorExposed s.included_fields m.required_fields
  let pins := expo.map fun p => if p.2 then MarkerPin.setPinned else MarkerPin.generic
  { fn_name := m.fn_name
    selfPins := pins
    returnPins := pins
    exposed_names := (expo.filter fun p => p.2).map fun p => p.1.name }

/-- Positional write-back of the mutator struct's fields into the builder
tuple (the reconstruction `fields: ( #destructuring )`): an exposed slot is
rebuilt as the Set shape around the next written-back value; a non-exposed
slot passes through its destructured value unchanged.  `none` models a
mismatch between the written-back values and the exposed slots. -/
def writeBack : List ((FieldInfo × Bool) × MVal α) → List α → Option (List (MVal α))
  | [], [] => some []
  | [], _ :: _ => none
  | ((_, true), _) :: t, n :: nt => (writeBack t nt).map fun r => MVal.setV n :: r
  | ((_, true), _) :: _, [] => none
  | ((_, false), v) :: t, nv => (writeBack t nv).map fun r => v :: r

/-- The generated mutator body's effect on a builder value: destructure
`self.fields` (an exposed slot must hold the Set shape, matching the pattern
`(name,)`), run the mutator body on the exposed values, write the results
back into the exposed slots, keep every other slot's value, and copy the
phantom component.  `none` models a body that would not type-check. -/
def mutator_eval (s : StructInfo) (m : MutatorSpec) (mutFn : List α → List α)
    (b : BuilderVal α) : Option (BuilderVal α) :=
  let expo := mutatorExposed s.included_fields m.required_fields
  if b.fields.length == expo.length then
    let paired := expo.zip b.fields
    if paired.all fun p => !p.1.2 || p.2.isSetB then
      let exposedVals := paired.filterMap fun p =>
        match p.1.2, p.2 with
        | true, MVal.setV v => some v
        | _, _ => none
      (writeBack paired (mutFn exposedVals)).map fun fs =>
        { fields := fs, phantom := b.phantom }
    else none
  else none

/-! ## BuildFinalizer (`StructInfo::build_method_impl`) -/

/-- The builder type-state the generated `build` method is impl-ed on
(struct_info.rs lines 555-566): a field with a default stays generic (with an
`Optional` bound); any other field is pinned Set `(ty,)`. -/
def build_method_pins (s : StructInfo) : List MarkerPin :=
  s.included_fields.map fun f =>
    if f.builder_attr.default.isSome then .generic else .setPinned

/-- The claim's wording of the `build` type-state: default and via-mutator
fields stay generic; only the remaining (required) fields are pinned Set. -/
def build_pins_from_spec (s : StructInfo) : List MarkerPin :=
  s.included_fields.map fun f =>
    if f.builder_attr.default.isSome || f.builder_attr.via_mutators.isSome then .generic
    else .setPinned

/-- One `let` binding of the generated `build` body. -/
inductive BuildAssign where
  | directDefault : String → Bool → RustExpr → BuildAssign
  | resolveOptional : String → Bool → RustExpr → BuildAssign
  | unwrapSet : String → Bool → BuildAssign
deriving DecidableEq, Repr

/-- The bound name of a `build` body binding. -/
def BuildAssign.bindName : BuildAssign → String
  | .directDefault n _ _ => n
  | .resolveOptional n _ _ => n
  | .unwrapSet n _ => n

/-- The `let` bindings of the generated `build` body, one per field of the
struct in declaration order (struct_info.rs lines 575-595): a skipped field
with a default is bound directly to its default expression; a non-skipped
field with a default is bound through `Optional::into_value` with the default
as the fallback thunk; a field with no default is bound by unwrapping its Set
slot with `.0`. -/
def build_assignments (s : StructInfo) : List BuildAssign :=
  s.fields.map fun f =>
    let m := f.builder_attr.mutable_during_default_resolution
    match f.builder_attr.default with
    | some d =>
      if f.builder_attr.setter.skip then .directDefault f.name m d
      else .resolveOptional f.name m d
    | none => .unwrapSet f.name m

/-- The claim's wording of the `build` bindings: every field with a default is
resolved through the resolve-optional primitive; every field without a default
is unwrapped from its Set slot. -/
def build_assignments_from_spec (s : StructInfo) : List BuildAssign :=
  s.fields.map fun f =>
    let m := f.builder_attr.mutable_during_default_resolution
    match f.builder_attr.default with
    | some d => .resolveOptional f.name m d
    | none => .unwrapSet f.name m

/-- Modelled from the spec: the resolve-optional primitive of the support
module (absent from src/): the current marker-derived value, or the lazily
evaluated fallback thunk when the field was never set. -/
def Optional.into_value : Option α → (Unit → α) → α
  | some v, _ => v
  | none, fb => fb ()

/-- Modelled from the spec: how many times resolve-optional evaluates its
fallback thunk. -/
def Optional.fallback_count : Option α → Nat
  | some _ => 0
  | none => 1

/-! ## TypeStateEncoder (`StructInfo::builder_creation_impl`) -/

/-- One component of the `fields` tuple the entry point constructs
(`init_fields_expr`, struct_info.rs lines 91-108): `()` for an ordinary
field, `(init,)` for a via-mutator field. -/
inductive InitSlot where
  | unsetUnit : InitSlot
  | setInit : RustExpr → InitSlot
deriving DecidableEq, Repr

/-- The tuple of slots the generated entry point (`builder()`) constructs. -/
def init_fields_expr (s : StructInfo) : List InitSlot :=
  s.included_fields.map fun f =>
    match f.builder_attr.via_mutators with
    | some vm => .setInit vm.init
    | none => .unsetUnit

/-- One component of `init_fields_type` (struct_info.rs lines 83-89): the
type-level shape each slot of the default tuple takes. -/
inductive InitTySlot where
  | unsetTy : InitTySlot
  | setTy : RustTy → InitTySlot
deriving DecidableEq, Repr

/-- The default tuple type bound to the synthetic generic parameter:
`()` for an ordinary field, `(ty,)` for a via-mutator field. -/
def init_fields_type (s : StructInfo) : List InitTySlot :=
  s.included_fields.map fun f =>
    match f.builder_attr.via_mutators with
    | some _ => .setTy f.ty
    | none => .unsetTy

/-- A synthetic type parameter pushed onto the builder's generic parameter
list, with its default bound. -/
structure SyntheticParam where
  pname : String
  pdefault : Option (List InitTySlot)
deriving DecidableEq, Repr

/-- The synthetic generic parameters `builder_creation_impl` pushes onto the
struct's own generics (struct_info.rs lines 111-119): exactly one parameter,
`TypedBuilderFields`, default-bound to `init_fields_type`. -/
def builder_synthetic_params (s : StructInfo) : List SyntheticParam :=
  [{ pname := "TypedBuilderFields", pdefault := some (init_fields_type s) }]

/-- Whether the generated entry point carries the `const` qualifier
(struct_info.rs lines 90-110): the once-cell is set to the empty qualifier as
soon as some included via-mutator field's initializer is not a literal, and
otherwise resolves to `const`. -/
def builder_method_is_const (s : StructInfo) : Bool :=
  !(s.included_fields.any fun f =>
    match f.builder_attr.via_mutators with
    | some vm => !vm.init.isLit
    | none => false)

/-! ## Concrete example schemas -/

/-- Setter settings with nothing configured. -/
def plainSetter : SetterSettings :=
  { skip := false, rename := none, strip_option := false, strip_bool := false,
    auto_into := false, transform := none }

/-- Field attributes with nothing configured. -/
def plainAttr : FieldBuilderAttr :=
  { default := none, setter := plainSetter, via_mutators := none,
    mutable_during_default_resolution := false }

/-- A required field named a. -/
def fieldA : FieldInfo :=
  { ordinal := 0, name := "a", ty := .named "u32", builder_attr := plainAttr }

/-- A required field named b. -/
def fieldB : FieldInfo :=
  { ordinal := 1, name := "b", ty := .named "bool", builder_attr := plainAttr }

/-- A via-mutator field whose initializer is not a literal. -/
def fieldVia : FieldInfo :=
  { ordinal := 1, name := "v", ty := .named "u32",
    builder_attr := { plainAttr with via_mutators := some { init := RustExpr.other "compute()" } } }

/-- A via-mutator field whose initializer is a literal. -/
def fieldViaLit : FieldInfo :=
  { ordinal := 1, name := "v", ty := .named "u32",
    builder_attr := { plainAttr with via_mutators := some { init := RustExpr.lit "0" } } }

/-- A skipped field with a default. -/
def skipSetter : SetterSettings := { plainSetter with skip := true }

/-- Field attributes for a skipped field with a default. -/
def skipAttr : FieldBuilderAttr :=
  { plainAttr with default := some (RustExpr.lit "0"), setter := skipSetter }

def fieldSkip : FieldInfo :=
  { ordinal := 0, name := "s", ty := .named "u32", builder_attr := skipAttr }

/-- Setter settings combining strip_option with auto_into. -/
def stripIntoSetter : SetterSettings :=
  { plainSetter with strip_option := true, auto_into := true }

/-- A field combining strip_option with auto_into on an Option type. -/
def fieldStrip : FieldInfo :=
  { ordinal := 0, name := "t", ty := .option (.named "String"),
    builder_attr := { plainAttr with setter := stripIntoSetter } }

/-- A schema with two required fields. -/
def S2 : StructInfo := { name := "Two", fields := [fieldA, fieldB], mutators := [] }

/-- A schema with one non-literal via-mutator field. -/
def SVia : StructInfo := { name := "Via", fields := [fieldVia], mutators := [] }

/-- A schema with one literal via-mutator field. -/
def SViaLit : StructInfo := { name := "ViaLit", fields := [fieldViaLit], mutators := [] }

/-- A schema mixing a required field and a via-mutator field. -/
def SMix : StructInfo := { name := "Mix", fields := [fieldA, fieldVia], mutators := [] }

/-- A schema with one skipped defaulted field. -/
def SSkip : StructInfo := { name := "Skip", fields := [fieldSkip], mutators := [] }

/-- A mutator requiring field a. -/
def mutM : MutatorSpec := { fn_name := "tweak", required_fields := ["a"] }

/-- A schema with two required fields and one mutator. -/
def SMut : StructInfo := { name := "Mut", fields := [fieldA, fieldB], mutators := [mutM] }

/-- The output of field_impl for field a of the two-field schema. -/
def outA : FieldImplOutput :=
  { setter :=
      { methodName := "a"
        selfPins := [.unsetPinned, .generic]
        targetPins := [.setPinned, .generic]
        params := .singleParam "a" (.plainTy (.named "u32"))
        argExpr := .var "a" }
    repeated :=
      { methodName := "a"
        selfPins := [.setPinned, .generic]
        returnPins := [.setPinned, .generic]
        deprecation_note := "Repeated field a" } }


/-! ## Helper lemmas -/

theorem forall₂_map_of_pointwise {α β : Type} (l : List α) (g : α → β)
    (r : α → β → Prop) (h : ∀ a ∈ l, r a (g a)) : List.Forall₂ r l (l.map g) := by
  rw [List.forall₂_map_right_iff]
  exact List.forall₂_same.mpr h

theorem required_pins_eq_spec (s : StructInfo) (field : FieldInfo) :
    required_field_impl_pins s field = s.included_fields.map (guardPinFromSpec field) := by
  unfold required_field_impl_pins guardPinFromSpec
  refine List.map_congr_left fun g _ => ?_
  split_ifs <;> first | rfl | omega

/-! ## Theorems for the claims -/

/-- C1: a guard finalize overload is generated for exactly the included fields
with no default that are not via-mutator, and each target field's overload is
impl-ed on the type-state where a field with a default or via-mutator stays
generic, an earlier-ordinal field is pinned Set, a later-ordinal field stays
generic, and the target field itself is pinned Unset — so of several
simultaneously missing required fields the one of smallest ordinal is
surfaced. -/
theorem required_guard_overloads_match_spec (s : StructInfo) :
    derive_required_guards s =
      ((s.included_fields.filter fun f =>
          f.builder_attr.default.isNone && f.builder_attr.via_mutators.isNone).map
        fun f => (f.name, s.included_fields.map (guardPinFromSpec f))) := by
  unfold derive_required_guards StructInfo.setter_fields
  rw [List.filter_filter]
  exact List.map_congr_left fun f _ => by rw [required_pins_eq_spec]

/-- C2: whenever the setter generator succeeds, the argument shape it produces
is the one prescribed by the precedence strip-bool over transform over
strip-option over auto-into over plain, with strip-option and auto-into
combining by stripping first and then converting. -/
theorem setter_arg_shape_follows_precedence (field : FieldInfo) (r : ParamList × ArgExpr)
    (h : setter_arg_shape field = .ok r) :
    arg_shape_from_spec field = some r := by
  cases hsb : field.builder_attr.setter.strip_bool <;>
    cases hso : field.builder_attr.setter.strip_option <;>
      cases htr : field.builder_attr.setter.transform <;>
        cases hai : field.builder_attr.setter.auto_into <;>
          cases hty : type_from_inside_option field.ty <;>
            simp_all [setter_arg_shape, arg_shape_from_spec]

/-- C2 witness: a field combining strip_option and auto_into on an Option
type gets the stripped-then-converted single-argument shape. -/
theorem setter_arg_shape_witness :
    arg_shape_from_spec fieldStrip =
      some (.singleParam "t" (.implInto (.named "String")),
        .someOf (.intoOf (.var "t"))) :=
  setter_arg_shape_follows_precedence fieldStrip
    (.singleParam "t" (.implInto (.named "String")), .someOf (.intoOf (.var "t"))) rfl

/-- C3: besides the ordinary setter (impl-ed on the state with the field
Unset), field_impl emits a same-named method on the state where the field is
pinned Set, returning that same Set state, deprecated with a message naming
the field, whose body returns the builder unchanged. -/
theorem repeated_set_guard (s : StructInfo) (field : FieldInfo) (out : FieldImplOutput)
    (h : field_impl s field = .ok out) :
    out.repeated.methodName = out.setter.methodName ∧
    out.setter.selfPins =
      (s.included_fields.map fun g =>
        if g.ordinal = field.ordinal then .unsetPinned else .generic) ∧
    out.repeated.selfPins =
      (s.included_fields.map fun g =>
        if g.ordinal = field.ordinal then .setPinned else .generic) ∧
    out.repeated.returnPins = out.repeated.selfPins ∧
    out.repeated.deprecation_note = "Repeated field " ++ field.name ∧
    ∀ (α : Type) (b : BuilderVal α), repeated_setter_eval b = b := by
  unfold field_impl at h
  cases hs : setter_arg_shape field with
  | error e => rw [hs] at h; exact absurd h (by simp)
  | ok shape =>
    rw [hs] at h
    simp only [Except.ok.injEq] at h
    subst h
    exact ⟨rfl, rfl, rfl, rfl, rfl, fun _ _ => rfl⟩

/-- C3 witness: the repeated-set overload generated for field a of the
two-field schema carries the deprecation message naming field a and is
impl-ed on and returns the same Set state. -/
theorem repeated_set_guard_witness :
    outA.repeated.deprecation_note = "Repeated field " ++ fieldA.name ∧
    outA.repeated.methodName = outA.setter.methodName ∧
    outA.repeated.returnPins = outA.repeated.selfPins :=
  have h := repeated_set_guard S2 fieldA outA rfl
  ⟨h.2.2.2.2.1, h.1, h.2.2.2.1⟩

/-- C4 counterexample: for a skipped field with a default, the generated build
body binds the default expression directly instead of routing it through the
resolve-optional primitive, so the claim's description of every defaulted
field is false as stated. -/
theorem build_assignments_skip_counterexample :
    build_assignments SSkip ≠ build_assignments_from_spec SSkip := by
  decide

/-- C4 (amended): the build body binds one local per field in declaration
order; a non-skipped field with a default is resolved through the
resolve-optional primitive, a skipped field with a default is bound directly
to its default expression, and a field without a default is unwrapped from its
Set marker; the resolve-optional primitive evaluates its fallback thunk at
most once and only when the field was never set, and since bindings are
emitted in field order a later default may reference earlier bindings by
name. -/
theorem build_assignments_characterization (s : StructInfo) :
    (build_assignments s).map BuildAssign.bindName = s.fields.map FieldInfo.name ∧
    List.Forall₂ (fun f a =>
      (∀ d, f.builder_attr.default = some d → f.builder_attr.setter.skip = true →
        a = BuildAssign.directDefault f.name f.builder_attr.mutable_during_default_resolution d) ∧
      (∀ d, f.builder_attr.default = some d → f.builder_attr.setter.skip = false →
        a = BuildAssign.resolveOptional f.name f.builder_attr.mutable_during_default_resolution d) ∧
      (f.builder_attr.default = none →
        a = BuildAssign.unwrapSet f.name f.builder_attr.mutable_during_default_resolution))
      s.fields (build_assignments s) ∧
    (∀ (α : Type) (o : Option α) (fb : Unit → α),
      Optional.fallback_count o ≤ 1 ∧
      (∀ v, o = some v → Optional.fallback_count o = 0 ∧ Optional.into_value o fb = v) ∧
      (o = none → Optional.into_value o fb = fb ())) := by
  refine ⟨?_, ?_, ?_⟩
  · unfold build_assignments
    rw [List.map_map]
    exact List.map_congr_left fun f _ => by
      cases hd : f.builder_attr.default <;> cases hs : f.builder_attr.setter.skip <;>
        simp [BuildAssign.bindName, hd, hs]
  · unfold build_assignments
    refine forall₂_map_of_pointwise _ _ _ fun f _ => ?_
    refine ⟨fun d hd hs => ?_, fun d hd hs => ?_, fun hd => ?_⟩
    · simp [hd, hs]
    · simp [hd, hs]
    · simp [hd]
  · intro α o fb
    refine ⟨?_, fun v hv => ?_, fun hn => ?_⟩
    · cases o <;> simp [Optional.fallback_count]
    · subst hv; exact ⟨rfl, rfl⟩
    · subst hn; rfl

/-- C4 witness: resolve-optional on a set slot returns the stored value with
the fallback never evaluated, and on an unset slot runs the fallback. -/
theorem build_assignments_witness :
    Optional.into_value (some (5 : Nat)) (fun _ => 9) = 5 ∧
    Optional.fallback_count (some (5 : Nat)) = 0 ∧
    Optional.into_value (none : Option Nat) (fun _ => 9) = 9 :=
  have h := (build_assignments_characterization SSkip).2.2 Nat
  ⟨((h (some 5) fun _ => 9).2.1 5 rfl).2, ((h (some 5) fun _ => 9).2.1 5 rfl).1,
    (h none fun _ => 9).2.2 rfl⟩

/-- C6 counterexample: for a schema with a via-mutator field, the generated
build method pins that field's marker to Set, while the claim says via-mutator
fields stay generic. -/
theorem build_method_pins_counterexample :
    build_method_pins SVia ≠ build_pins_from_spec SVia := by
  decide

/-- C6 (amended): the build method is impl-ed on the type-state where every
field without a default — the required fields and also the via-mutator fields
without a default — is pinned Set, while every field with a default stays
generic. -/
theorem build_method_pins_characterization (s : StructInfo) :
    List.Forall₂ (fun f pin =>
      (∀ d, f.builder_attr.default = some d → pin = MarkerPin.generic) ∧
      (f.builder_attr.default = none → pin = MarkerPin.setPinned))
      s.included_fields (build_method_pins s) := by
  unfold build_method_pins
  refine forall₂_map_of_pointwise _ _ _ fun f _ => ?_
  refine ⟨fun d hd => ?_, fun hd => ?_⟩ <;> simp [hd]

/-- C6 witness: on the schema with one via-mutator field, the build method
pins that field Set. -/
theorem build_method_pins_witness : build_method_pins SVia = [MarkerPin.setPinned] := by
  have h := build_method_pins_characterization SVia
  cases h with
  | cons hrel hnil =>
    cases hnil
    exact congrArg (fun p => [p]) (hrel.2 rfl)

/-- C7 counterexample: for a schema with a via-mutator field the entry point
does not produce the all-unset type-state — the via-mutator field's slot is
constructed Set, populated from its initializer. -/
theorem init_fields_counterexample :
    ¬ ∀ slot ∈ init_fields_expr SVia, slot = InitSlot.unsetUnit := by
  decide

/-- C7 (amended): the entry point produces the initial builder whose marker is
Unset for every included non-via-mutator field and Set — populated from the
configured initializer expression — for every via-mutator field. -/
theorem init_fields_characterization (s : StructInfo) :
    List.Forall₂ (fun f slot =>
      (f.builder_attr.via_mutators = none → slot = InitSlot.unsetUnit) ∧
      (∀ vm, f.builder_attr.via_mutators = some vm → slot = InitSlot.setInit vm.init))
      s.included_fields (init_fields_expr s) := by
  unfold init_fields_expr
  refine forall₂_map_of_pointwise _ _ _ fun f _ => ?_
  refine ⟨fun hn => ?_, fun vm hv => ?_⟩
  · simp [hn]
  · simp [hv]

/-- C7 witness: on the schema with one via-mutator field, the entry point
constructs that slot Set around the initializer. -/
theorem init_fields_witness :
    init_fields_expr SVia = [InitSlot.setInit (RustExpr.other "compute()")] := by
  have h := init_fields_characterization SVia
  cases h with
  | cons hrel hnil =>
    cases hnil
    exact congrArg (fun p => [p]) (hrel.2 { init := RustExpr.other "compute()" } rfl)

/-- C8 counterexample: the builder's generic parameter list gains exactly one
synthetic parameter — not one per included field — and its default is not the
all-Unset tuple when a via-mutator field is present. -/
theorem builder_generics_counterexample :
    ¬ ((builder_synthetic_params SMix).length = SMix.included_fields.length ∧
      ∀ p ∈ builder_synthetic_params SMix,
        p.pdefault = some (List.replicate SMix.included_fields.length InitTySlot.unsetTy)) := by
  decide

/-- C8 (amended): the builder type gains exactly one synthetic type parameter,
TypedBuilderFields, default-bound to the tuple with one component per included
field whose components are Unset for non-via-mutator fields and Set of the
declared type for via-mutator fields. -/
theorem builder_synthetic_param_characterization (s : StructInfo) :
    (builder_synthetic_params s).length = 1 ∧
    (∀ p ∈ builder_synthetic_params s,
      p.pname = "TypedBuilderFields" ∧ p.pdefault = some (init_fields_type s)) ∧
    List.Forall₂ (fun f slot =>
      (f.builder_attr.via_mutators = none → slot = InitTySlot.unsetTy) ∧
      (f.builder_attr.via_mutators.isSome = true → slot = InitTySlot.setTy f.ty))
      s.included_fields (init_fields_type s) := by
  refine ⟨rfl, ?_, ?_⟩
  · intro p hp
    rw [List.mem_singleton.mp hp]
    exact ⟨rfl, rfl⟩
  · unfold init_fields_type
    refine forall₂_map_of_pointwise _ _ _ fun f _ => ?_
    refine ⟨fun hn => ?_, fun hv => ?_⟩
    · simp [hn]
    · rcases Option.isSome_iff_exists.mp hv with ⟨vm, hvm⟩
      simp [hvm]

/-- C8 witness: the mixed schema has two included fields but one synthetic
parameter, defaulted to the Unset/Set tuple. -/
theorem builder_synthetic_param_witness :
    (builder_synthetic_params SMix).length = 1 ∧
    SMix.included_fields.length = 2 :=
  ⟨(builder_synthetic_param_characterization SMix).1, rfl⟩

/-- C9: the entry point is const exactly when every via-mutator field's
initializer is a literal (assuming, per the schema invariants, that no
via-mutator field is skipped); any non-literal initializer relaxes the
qualifier. -/
theorem builder_method_const_iff (s : StructInfo)
    (hsk : ∀ f ∈ s.fields, f.builder_attr.via_mutators.isSome →
      f.builder_attr.setter.skip = false) :
    builder_method_is_const s = true ↔
      ∀ f ∈ s.fields, ∀ vm, f.builder_attr.via_mutators = some vm →
        vm.init.isLit = true := by
  unfold builder_method_is_const
  rw [Bool.not_eq_true', List.any_eq_false]
  constructor
  · intro h f hf vm hvm
    have hinc : f ∈ s.included_fields := by
      rw [StructInfo.included_fields, List.mem_filter]
      exact ⟨hf, by rw [hsk f hf (by rw [hvm]; rfl)]; rfl⟩
    have := h f hinc
    rw [hvm] at this
    simpa using this
  · intro h f hf
    have hmem : f ∈ s.fields := List.mem_filter.mp hf |>.1
    cases hvm : f.builder_attr.via_mutators with
    | none => simp
    | some vm => simp [h f hmem vm hvm]

/-- C9 witness: a schema whose single via-mutator initializer is a literal
gets the const entry point. -/
theorem builder_method_const_witness : builder_method_is_const SViaLit = true :=
  (builder_method_const_iff SViaLit (by decide)).mpr (by decide)

theorem mutatorExposed_eq (l : List FieldInfo) (req : List String)
    (hnd : (l.map FieldInfo.name).Nodup) :
    mutatorExposed l req =
      (l.map fun f => (f, f.builder_attr.via_mutators.isSome || decide (f.name ∈ req))) := by
  induction l generalizing req with
  | nil => rfl
  | cons f t ih =>
    rw [List.map_cons, List.nodup_cons] at hnd
    obtain ⟨hf, ht⟩ := hnd
    rw [List.map_cons]
    by_cases hv : f.builder_attr.via_mutators.isSome
    · rw [mutatorExposed, if_pos hv, ih req ht, hv]
      simp
    · by_cases hm : f.name ∈ req
      · rw [mutatorExposed, if_neg hv, if_pos hm, ih (req.erase f.name) ht]
        rw [Bool.not_eq_true] at hv
        refine congrArg₂ List.cons (by simp [hv, hm]) ?_
        refine List.map_congr_left fun g hg => ?_
        have hne : g.name ≠ f.name := fun he =>
          hf (he ▸ List.mem_map_of_mem FieldInfo.name hg)
        simp [List.mem_erase_of_ne hne]
      · rw [mutatorExposed, if_neg hv, if_neg hm, ih req ht]
        rw [Bool.not_eq_true] at hv
        simp [hv, hm]

theorem writeBack_spec {α : Type} (l : List ((FieldInfo × Bool) × MVal α)) :
    ∀ (nv : List α) (out : List (MVal α)), writeBack l nv = some out →
    out.length = l.length ∧
    ∀ i (h1 : i < out.length) (h2 : i < l.length),
      ((l[i].1.2 = false → out[i] = l[i].2) ∧
       (l[i].1.2 = true → ∃ v, out[i] = MVal.setV v)) := by
  induction l with
  | nil =>
    intro nv out h
    cases nv with
    | nil =>
      simp only [writeBack, Option.some.injEq] at h
      subst h
      exact ⟨rfl, fun i h1 h2 => absurd h2 (by simp)⟩
    | cons n nt => simp [writeBack] at h
  | cons p t ih =>
    intro nv out h
    obtain ⟨⟨g, flag⟩, v⟩ := p
    cases flag with
    | true =>
      cases nv with
      | nil => simp [writeBack] at h
      | cons n nt =>
        simp only [writeBack] at h
        rw [Option.map_eq_some'] at h
        obtain ⟨r, hr, hout⟩ := h
        subst hout
        obtain ⟨hlen, hrest⟩ := ih nt r hr
        refine ⟨by simp [hlen], fun i h1 h2 => ?_⟩
        cases i with
        | zero =>
          constructor
          · intro hc
            simp at hc
          · intro hdummy
            exact ⟨n, rfl⟩
        | succ j =>
          simp only [List.getElem_cons_succ]
          exact hrest j (by simpa using h1) (by simpa using h2)
    | false =>
      simp only [writeBack] at h
      rw [Option.map_eq_some'] at h
      obtain ⟨r, hr, hout⟩ := h
      subst hout
      obtain ⟨hlen, hrest⟩ := ih nv r hr
      refine ⟨by simp [hlen], fun i h1 h2 => ?_⟩
      cases i with
      | zero =>
        constructor
        · intro hdummy
          rfl
        · intro hc
          simp at hc
      | succ j =>
        simp only [List.getElem_cons_succ]
        exact hrest j (by simpa using h1) (by simpa using h2)

/-- C5: the generated mutator method is impl-ed on the type-state where
exactly the fields named in the mutator's required set and the via-mutator
fields are pinned Set; the returned builder's type-state is the same list of
pins; the call-site arguments are bound before the field destructuring in the
emitted body; and at value level a successful mutator call preserves the
phantom component, the slot count, each slot's Set/Unset state, and the exact
value of every slot not exposed to the mutator. -/
theorem mutator_impl_properties (s : StructInfo) (m : MutatorSpec)
    (hnd : (s.included_fields.map FieldInfo.name).Nodup) :
    (mutator_impl s m).selfPins =
      (s.included_fields.map fun f =>
        if f.builder_attr.via_mutators.isSome || decide (f.name ∈ m.required_fields)
        then MarkerPin.setPinned else MarkerPin.generic) ∧
    (mutator_impl s m).returnPins = (mutator_impl s m).selfPins ∧
    List.indexOf MutStmt.bindArgs mutator_body_stmts <
      List.indexOf MutStmt.destructureFields mutator_body_stmts ∧
    (∀ (α : Type) (mutFn : List α → List α) (b res : BuilderVal α),
      mutator_eval s m mutFn b = some res →
      res.phantom = b.phantom ∧
      res.fields.length = b.fields.length ∧
      (∀ i (h1 : i < res.fields.length) (h2 : i < b.fields.length),
        (res.fields[i]).isSetB = (b.fields[i]).isSetB) ∧
      (∀ i (h1 : i < res.fields.length) (h2 : i < b.fields.length)
          (h3 : i < (mutatorExposed s.included_fields m.required_fields).length),
        ((mutatorExposed s.included_fields m.required_fields)[i]).2 = false →
        res.fields[i] = b.fields[i])) := by
  refine ⟨?_, rfl, by decide, ?_⟩
  · simp only [mutator_impl]
    rw [mutatorExposed_eq s.included_fields m.required_fields hnd, List.map_map]
    rfl
  · intro α mutFn b res h
    simp only [mutator_eval] at h
    split at h
    case isFalse => exact absurd h (by simp)
    case isTrue hlen =>
      split at h
      case isFalse => exact absurd h (by simp)
      case isTrue hall =>
        rw [Option.map_eq_some'] at h
        obtain ⟨fs, hw, hres⟩ := h
        subst hres
        have hlen2 : b.fields.length =
            (mutatorExposed s.included_fields m.required_fields).length := by
          simpa using hlen
        have hziplen : ((mutatorExposed s.included_fields m.required_fields).zip
            b.fields).length = b.fields.length := by
          rw [List.length_zip, hlen2, Nat.min_self]
        obtain ⟨hwlen, hwnth⟩ := writeBack_spec _ _ fs hw
        have hfslen : fs.length = b.fields.length := by rw [hwlen, hziplen]
        refine ⟨rfl, hfslen, ?_, ?_⟩
        · intro i h1 h2
          have h3 : i < ((mutatorExposed s.included_fields m.required_fields).zip
              b.fields).length := by omega
          have hpair := hwnth i h1 h3
          have hget : ((mutatorExposed s.included_fields m.required_fields).zip
              b.fields)[i] =
              ((mutatorExposed s.included_fields m.required_fields)[i], b.fields[i]) :=
            List.getElem_zip
          cases hflag : ((mutatorExposed s.included_fields m.required_fields)[i]).2 with
          | false =>
            have := hpair.1 (by rw [hget]; exact hflag)
            rw [hget] at this
            rw [this]
          | true =>
            obtain ⟨v, hv⟩ := hpair.2 (by rw [hget]; exact hflag)
            rw [hv]
            have hmem : ((mutatorExposed s.included_fields m.required_fields).zip
                b.fields)[i] ∈ (mutatorExposed s.included_fields m.required_fields).zip
                b.fields := List.getElem_mem _
            have := List.all_eq_true.mp hall _ hmem
            rw [hget] at this
            rw [hflag] at this
            simp only [Bool.not_true, Bool.false_or] at this
            cases hb : (b.fields[i]).isSetB with
            | true => rfl
            | false => rw [hb] at this; simp at this
        · intro i h1 h2 h3 hflag
          have h3z : i < ((mutatorExposed s.included_fields m.required_fields).zip
              b.fields).length := by omega
          have hpair := hwnth i h1 h3z
          have hget : ((mutatorExposed s.included_fields m.required_fields).zip
              b.fields)[i] =
              ((mutatorExposed s.included_fields m.required_fields)[i], b.fields[i]) :=
            List.getElem_zip
          have := hpair.1 (by rw [hget]; exact hflag)
          rw [hget] at this
          exact this

/-- C5 witness: the mutator requiring field a of the two-field schema is
impl-ed on the state pinning a Set and leaving b generic. -/
theorem mutator_impl_witness :
    (mutator_impl SMut mutM).selfPins = [MarkerPin.setPinned, MarkerPin.generic] :=
  (mutator_impl_properties SMut mutM (by decide)).1

theorem allSome_map_some {β : Type} (l : List β) : allSome (l.map some) = some l := by
  induction l with
  | nil => rfl
  | cons a t ih => rw [List.map_cons, allSome, ih]; rfl

theorem find_setterBinds_of_not_mem {α : Type} (field : FieldInfo)
    (l : List (FieldInfo × MVal α)) (n : String)
    (h : n ∉ l.map fun p => p.1.name) :
    (setterBinds field l).find? (fun q => q.1 == n) = none := by
  induction l with
  | nil => rfl
  | cons p t ih =>
    rw [List.map_cons, List.mem_cons, not_or] at h
    obtain ⟨h1, h2⟩ := h
    by_cases hp : p.1.ordinal = field.ordinal
    · rw [setterBinds, List.filterMap_cons, if_pos hp]
      exact ih h2
    · rw [setterBinds, List.filterMap_cons, if_neg hp]
      rw [List.find?_cons_of_neg]
      · exact ih h2
      · intro hc
        exact h1 (beq_iff_eq.mp hc).symm

theorem find_setterBinds_of_mem {α : Type} (field : FieldInfo)
    (l : List (FieldInfo × MVal α)) (g : FieldInfo) (v : MVal α)
    (hnd : (l.map fun p => p.1.name).Nodup) (hmem : (g, v) ∈ l) :
    (setterBinds field l).find? (fun q => q.1 == g.name) =
      if g.ordinal = field.ordinal then none else some (g.name, v) := by
  induction l with
  | nil => cases hmem
  | cons p t ih =>
    rw [List.map_cons, List.nodup_cons] at hnd
    obtain ⟨hp1, hp2⟩ := hnd
    rcases List.mem_cons.mp hmem with heq | hmem2
    · subst heq
      by_cases hgo : g.ordinal = field.ordinal
      · rw [setterBinds, List.filterMap_cons, if_pos hgo]
        exact find_setterBinds_of_not_mem field t g.name hp1
      · rw [setterBinds, List.filterMap_cons, if_neg hgo]
        exact List.find?_cons_of_pos _ (beq_iff_eq.mpr rfl)
    · have hgn : g.name ∈ t.map fun q => q.1.name :=
        List.mem_map_of_mem (fun q => q.1.name) hmem2
      have hne : p.1.name ≠ g.name := fun he => hp1 (he ▸ hgn)
      by_cases hp : p.1.ordinal = field.ordinal
      · rw [setterBinds, List.filterMap_cons, if_pos hp]
        exact ih hp2 hmem2
      · rw [setterBinds, List.filterMap_cons, if_neg hp]
        rw [List.find?_cons_of_neg]
        · exact ih hp2 hmem2
        · intro hc
          exact hne (beq_iff_eq.mp hc)

/-- C10: the generated setter body destructures the incoming builder's field
tuple, replaces only the target field's slot with the new Set value,
reconstructs every other included field's slot with its stored value
unchanged, and carries the phantom component over. -/
theorem setter_body_frame {α : Type} (s : StructInfo) (field : FieldInfo) (newv : α)
    (b : BuilderVal α)
    (hmem : field ∈ s.setter_fields)
    (hord : (s.included_fields.map FieldInfo.ordinal).Nodup)
    (hname : (s.included_fields.map FieldInfo.name).Nodup)
    (hlen : b.fields.length = s.included_fields.length)
    (hunset : ∀ p ∈ s.included_fields.zip b.fields,
      p.1.ordinal = field.ordinal → p.2 = MVal.unsetU) :
    setter_body_eval s field newv b =
      some { fields := (s.included_fields.zip b.fields).map fun p =>
               if p.1.ordinal = field.ordinal then MVal.setV newv else p.2,
             phantom := b.phantom } := by
  have hfinc : field ∈ s.included_fields := by
    rw [StructInfo.setter_fields] at hmem
    exact (List.mem_filter.mp hmem).1
  have hndz : ((s.included_fields.zip b.fields).map fun p => p.1.name).Nodup := by
    have h1 : ((s.included_fields.zip b.fields).map Prod.fst).map FieldInfo.name =
        (s.included_fields.zip b.fields).map fun p => p.1.name := by
      rw [List.map_map]
      rfl
    have hz : ((s.included_fields.zip b.fields).map fun p => p.1.name) =
        s.included_fields.map FieldInfo.name := by
      rw [← h1, List.map_fst_zip _ _ (le_of_eq hlen.symm)]
    rw [hz]
    exact hname
  have hguard : ((b.fields.length == s.included_fields.length)
      && ((s.included_fields.zip b.fields).all fun p =>
            p.1.ordinal != field.ordinal || !p.2.isSetB)) = true := by
    rw [Bool.and_eq_true]
    refine ⟨beq_iff_eq.mpr hlen, List.all_eq_true.mpr fun p hp => ?_⟩
    by_cases hpo : p.1.ordinal = field.ordinal
    · rw [hunset p hp hpo]
      simp [MVal.isSetB]
    · simp [hpo]
  have hkey : (s.included_fields.map fun g =>
      lookupEnv (setterBinds field (s.included_fields.zip b.fields) ++
        [(field.name, MVal.setV newv)]) g.name) =
      (((s.included_fields.zip b.fields).map fun p =>
        if p.1.ordinal = field.ordinal then MVal.setV newv else p.2).map some) := by
    rw [List.map_map]
    apply List.ext_getElem
    · rw [List.length_map, List.length_map, List.length_zip, hlen, Nat.min_self]
    · intro i hi1 hi2
      rw [List.getElem_map, List.getElem_map]
      have hii : i < s.included_fields.length := by
        rw [List.length_map] at hi1
        exact hi1
      have hiz : i < (s.included_fields.zip b.fields).length := by
        rw [List.length_map] at hi2
        exact hi2
      have hib : i < b.fields.length := by
        rw [List.length_zip, hlen] at hiz
        omega
      have hgz : (s.included_fields.zip b.fields)[i] =
          (s.included_fields[i], b.fields[i]) := List.getElem_zip
      have hmemz : (s.included_fields[i], b.fields[i]) ∈
          s.included_fields.zip b.fields := by
        rw [← hgz]
        exact List.getElem_mem hiz
      have hfind := find_setterBinds_of_mem field (s.included_fields.zip b.fields)
        (s.included_fields[i]) (b.fields[i]) hndz hmemz
      rw [hgz]
      simp only [lookupEnv, Function.comp_apply]
      rw [List.find?_append]
      by_cases hio : (s.included_fields[i]).ordinal = field.ordinal
      · have hieq : s.included_fields[i] = field :=
          List.inj_on_of_nodup_map hord (List.getElem_mem hii) hfinc hio
        rw [if_pos hio] at hfind
        rw [hfind, Option.none_or, hieq]
        simp
      · rw [if_neg hio] at hfind
        rw [hfind]
        simp [hio, Option.or]
  simp only [setter_body_eval]
  rw [if_pos hguard, hkey, allSome_map_some]
  rfl

/-- C10 witness: setting field a of the two-field schema replaces slot 0 with
the new Set value and leaves slot 1 and the phantom untouched. -/
theorem setter_body_frame_witness :
    setter_body_eval S2 fieldA (5 : Nat)
        { fields := [MVal.unsetU, MVal.setV 7], phantom := 3 } =
      some { fields := [MVal.setV 5, MVal.setV 7], phantom := 3 } := by
  rw [setter_body_frame S2 fieldA 5
    { fields := [MVal.unsetU, MVal.setV 7], phantom := 3 }
    (by decide) (by decide) (by decide) (by decide) (by decide)]
  rfl
